import Mathlib

/-!
Verification of the hegel-pm discovery-and-caching data layer.

Shallow embedding of the Rust sources:
- `src/discovery/cache.rs`   (sharded binary cache, snapshot cache)
- `src/discovery/walker.rs`  (filesystem scanner)
- `src/discovery/state.rs` + `src/discovery/discover.rs` (state loading)
- `src/discovery/engine.rs`  (discovery engine orchestration)
- `src/data_layer/worker.rs` (request worker)

Filesystem paths are modelled as `String`, `SystemTime` as `Nat`,
byte buffers (`Vec<u8>`) as `List Nat`.  Machine integers (`u64`,
64-bit `usize`) are `Nat` reduced modulo `2 ^ 64` where the source
performs wrapping arithmetic.  Disk I/O is modelled by explicit stores
(association lists from file name to content) and by injected
success/failure flags where a claim is about failure handling.
-/

/-- Workflow state, re-exported from the hegel crate
(`{current_node, mode, history[], workflow_id?}` per the external
interface contract). -/
structure WorkflowState where
  current_node : String
  mode : String
  history : List String
  workflow_id : Option String
deriving DecidableEq

/-- Token counters of `hegel::metrics::UnifiedMetrics` (u64 fields). -/
structure TokenMetrics where
  total_input_tokens : Nat
  total_output_tokens : Nat
  total_cache_creation_tokens : Nat
  total_cache_read_tokens : Nat
deriving DecidableEq

/-- Hook counters of `hegel::metrics::UnifiedMetrics`.  The worker only
reads `total_events` and the lengths of the two lists, so list elements
are abstracted to `Unit`. -/
structure HookMetrics where
  total_events : Nat
  bash_commands : List Unit
  file_modifications : List Unit
deriving DecidableEq

/-- The heavy statistics blob (`hegel::metrics::UnifiedMetrics`); the
worker reads token counters, hook counters and the lengths of
`git_commits` and `phase_metrics`, so the element types of those lists
are abstracted to `Unit`. -/
structure UnifiedMetrics where
  token_metrics : TokenMetrics
  hook_metrics : HookMetrics
  git_commits : List Unit
  phase_metrics : List Unit
deriving DecidableEq

/-- `DiscoveredProject` from `src/discovery/project.rs`.  The
`statistics` field does not appear in the struct declaration in
`project.rs` as provided, but `cache.rs` (`project_copy.statistics =
None`) and `worker.rs` (`project.statistics`, `has_statistics()`)
require it.  Modelled from the spec: the data model gives ProjectRecord
an "optional heavy statistics blob (token/event/command/commit/phase
counters, lazily populated)". -/
structure DiscoveredProject where
  name : String
  project_path : String
  hegel_dir : String
  workflow_state : Option WorkflowState
  last_activity : Nat
  discovered_at : Nat
  error : Option String
  statistics : Option UnifiedMetrics
deriving DecidableEq

/-- `project.has_statistics()`: whether the heavy statistics blob is
loaded. -/
def DiscoveredProject.has_statistics (p : DiscoveredProject) : Bool :=
  p.statistics.isSome

/-- `ProjectIndexEntry` from `src/discovery/cache.rs`. -/
structure ProjectIndexEntry where
  name : String
  project_path : String
  hegel_dir : String
  last_activity : Nat
deriving DecidableEq

/-- The index projection built in `save_binary_cache`. -/
def toIndexEntry (p : DiscoveredProject) : ProjectIndexEntry :=
  { name := p.name
  , project_path := p.project_path
  , hegel_dir := p.hegel_dir
  , last_activity := p.last_activity }

/-- The character sanitization of `write_project` / `read_project`:
`c.is_alphanumeric() || c == '-' || c == '_'` keeps the character,
anything else becomes `'_'`.  (`char::is_alphanumeric` is modelled at
its ASCII fragment by `Char.isAlphanum`.) -/
def sanitizeChar (c : Char) : Char :=
  if c.isAlphanum || c = '-' || c = '_' then c else '_'

/-- `name.replace(|c| !c.is_alphanumeric() && c != '-' && c != '_', "_")`:
every non-kept character is replaced by a single underscore. -/
def sanitize (name : String) : String :=
  String.mk (name.data.map sanitizeChar)

/-- `write_project` clears `statistics` and `workflow_state` on the
copy it serializes ("Clear statistics and workflow_state before
caching"). -/
def clearHeavy (p : DiscoveredProject) : DiscoveredProject :=
  { p with statistics := none, workflow_state := none }

/-- The cache directory contents: file name to stored record.
Insertion prepends; lookup finds the most recent write, which matches
`fs::write` overwrite semantics. -/
abbrev FileMap := List (String × DiscoveredProject)

/-- Plain association-list lookup on the cache directory. -/
def lookupFile (k : String) : FileMap → Option DiscoveredProject
  | [] => none
  | (k2, v) :: rest => if k2 = k then some v else lookupFile k rest

/-- `write_project`: store the heavy-field-cleared copy under
`<sanitized-name>.bin` (successful-write model). -/
def writeProjectFS (p : DiscoveredProject) (fs : FileMap) : FileMap :=
  (sanitize p.name ++ ".bin", clearHeavy p) :: fs

/-- `read_project`: read the file named `<sanitized-name>.bin`
(successful-read model; absent file yields `none`). -/
def readProjectFS (name : String) (fs : FileMap) : Option DiscoveredProject :=
  lookupFile (sanitize name ++ ".bin") fs

/-- `save_binary_cache` on the file-store model: write every project
file in order, then build the index from all projects.  Returns the
updated store and the freshly written index. -/
def saveBinaryCacheFS (projects : List DiscoveredProject) (fs : FileMap) :
    FileMap × List ProjectIndexEntry :=
  (projects.foldl (fun acc p => writeProjectFS p acc) fs,
   projects.map toIndexEntry)

/-- `load_binary_cache` on the file-store model: for each index entry
read its record file, skipping entries whose file is absent. -/
def loadBinaryCacheFS (index : List ProjectIndexEntry) (fs : FileMap) :
    List DiscoveredProject :=
  index.filterMap (fun e => readProjectFS e.name fs)

/-- A record file on disk as `read_project` can find it: present but
undeserializable, or present and valid. -/
inductive RecordFile where
  | corrupt
  | valid (p : DiscoveredProject)

/-- The index file on disk as `read_index` can find it: absent,
present but undeserializable, or present and valid. -/
inductive IndexFile where
  | absent
  | corrupt
  | valid (entries : List ProjectIndexEntry)

/-- `read_index`: absent file is `Ok(None)` (cache miss), a present
but corrupt file is a hard error, a valid file yields the entries. -/
def readIndexM : IndexFile → Except String (Option (List ProjectIndexEntry))
  | IndexFile.absent => Except.ok none
  | IndexFile.corrupt => Except.error "Failed to deserialize index"
  | IndexFile.valid entries => Except.ok (some entries)

/-- A cache directory keyed by file name, where record files may also
be corrupt. -/
abbrev RecordFileMap := List (String × RecordFile)

/-- Association-list lookup on a store with possibly-corrupt files. -/
def lookupRecordFile (k : String) : RecordFileMap → Option RecordFile
  | [] => none
  | (k2, v) :: rest => if k2 = k then some v else lookupRecordFile k rest

/-- `read_project` with failure modes: absent file is `Ok(None)`,
corrupt file is an error, valid file yields the record. -/
def readProjectM (name : String) (files : RecordFileMap) :
    Except String (Option DiscoveredProject) :=
  match lookupRecordFile (sanitize name ++ ".bin") files with
  | none => Except.ok none
  | some RecordFile.corrupt => Except.error "Failed to deserialize project"
  | some (RecordFile.valid p) => Except.ok (some p)

/-- One iteration of the `load_binary_cache` loop: a record that reads
back is kept, a missing or corrupt record file is skipped (with a
logged warning in the source). -/
def loadedRecord (files : RecordFileMap) (e : ProjectIndexEntry) :
    Option DiscoveredProject :=
  match readProjectM e.name files with
  | Except.ok (some p) => some p
  | Except.ok none => none
  | Except.error _ => none

/-- The accumulator step of the `load_binary_cache` loop:
`projects.push(project)` on success, skip otherwise. -/
def loadStep (files : RecordFileMap) (acc : List DiscoveredProject)
    (e : ProjectIndexEntry) : List DiscoveredProject :=
  match loadedRecord files e with
  | some p => acc ++ [p]
  | none => acc

/-- `load_binary_cache`: absent index is `Ok(None)`, corrupt index is a
hard error, otherwise each index entry is attempted and failures are
skipped, accumulating into a vector exactly as the source loop does. -/
def loadBinaryCacheM (indexFile : IndexFile) (files : RecordFileMap) :
    Except String (Option (List DiscoveredProject)) :=
  match readIndexM indexFile with
  | Except.error e => Except.error e
  | Except.ok none => Except.ok none
  | Except.ok (some idx) =>
      Except.ok (some (idx.foldl (loadStep files) []))

/-- One observable write during `save_binary_cache`: a per-record file
write (which may fail) or the final index write. -/
inductive WriteEvent where
  | record (name : String) (ok : Bool)
  | index (ok : Bool)
deriving DecidableEq

/-- The `for project in projects` loop of `save_binary_cache`: each
record write is attempted in order; a failure is logged and skipped,
never aborting the loop. -/
def writeRecordEvents (writeOk : String → Bool) :
    List DiscoveredProject → List WriteEvent
  | [] => []
  | p :: rest =>
      WriteEvent.record p.name (writeOk p.name) :: writeRecordEvents writeOk rest

/-- `save_binary_cache` as a write trace: all record writes first, the
index write last; only a failed index write makes the call return an
error (`write_index(&index, &cache_dir)?`). -/
def saveBinaryCacheTrace (writeOk : String → Bool) (indexOk : Bool)
    (projects : List DiscoveredProject) : List WriteEvent × Except String Unit :=
  let evs := writeRecordEvents writeOk projects
  if indexOk then (evs ++ [WriteEvent.index true], Except.ok ())
  else (evs ++ [WriteEvent.index false], Except.error "Failed to rename index file")

/-- A filesystem entry for the scanner: a plain file or a directory
with children.  Symbolic links are not modelled since the walk never
follows them (`follow_links(false)`). -/
inductive FsEntry where
  | file (name : String)
  | dir (name : String) (children : List FsEntry)

mutual
/-- `find_hegel_directories` from `src/discovery/walker.rs`, on one
entry: the `filter_entry` predicate prunes any entry whose own name is
in the exclusion list (whole subtree skipped); a directory named
`.hegel` contributes its parent path; children are visited while the
remaining depth allowance is positive (`max_depth`, root at depth 0).
Paths are root-relative lists of component names. -/
def collectMarkers (excl : List String) (maxd : Nat) (parentPath : List String) :
    FsEntry → List (List String)
  | FsEntry.file nm => if nm ∈ excl then [] else []
  | FsEntry.dir nm children =>
      if nm ∈ excl then []
      else
        (if nm = ".hegel" then [parentPath] else []) ++
        (if maxd = 0 then []
         else collectMarkersList excl (maxd - 1) (parentPath ++ [nm]) children)

/-- The walk over a directory's children, in order. -/
def collectMarkersList (excl : List String) (maxd : Nat) (parentPath : List String) :
    List FsEntry → List (List String)
  | [] => []
  | e :: rest =>
      collectMarkers excl maxd parentPath e ++
      collectMarkersList excl maxd parentPath rest
end

/-- The on-disk state file of one project's metadata directory, as the
state-loading step can encounter it.  Modelled from the spec: the
`hegel::storage::FileStorage` load behaviour (`hegel` is an external
crate, not in this repository's sources) — a missing `state.json` is
`Ok` with no state, a present but unparseable file is an error, a valid
file yields the optional `workflow_state` it holds. -/
inductive StateFileM where
  | missing
  | unparseable
  | parsed (workflow_state : Option WorkflowState)

/-- `load_state` from `src/discovery/state.rs`: delegate to the storage
and return the optional workflow state; a storage error propagates. -/
def loadStateM : StateFileM → Except String (Option WorkflowState)
  | StateFileM.missing => Except.ok none
  | StateFileM.unparseable => Except.error "Failed to load state"
  | StateFileM.parsed ws => Except.ok ws

/-- The `(workflow_state, error)` pairing at the `discover_projects`
call site: `Ok(state) => (state, None)`,
`Err(e) => (None, Some(format!("Failed to load state: ...")))`. -/
def statePair (sf : StateFileM) : Option WorkflowState × Option String :=
  match loadStateM sf with
  | Except.ok st => (st, none)
  | Except.error e => (none, some ("Failed to load state: " ++ e))

/-- The per-marker body of the `discover_projects` loop, restricted to
the state outcome: one result pair per discovered metadata directory,
whatever its state file looks like. -/
def discoverOutcomes (dirs : List StateFileM) :
    List (Option WorkflowState × Option String) :=
  dirs.map statePair

/-- The environment `DiscoveryEngine::get_projects` runs against: what
the sharded (binary) cache would load, what the snapshot (JSON) cache
would load (`none` = cache absent), and what a fresh scan would
discover. -/
structure CacheEnv where
  sharded : Option (List DiscoveredProject)
  snapshot : Option (List DiscoveredProject)
  scan : List DiscoveredProject
deriving DecidableEq

/-- The observable outcome of one `get_projects` call: the returned
records, the contents both on-disk caches would load afterwards, and
whether a filesystem scan ran. -/
structure EngineOutcome where
  projects : List DiscoveredProject
  sharded : Option (List DiscoveredProject)
  snapshot : Option (List DiscoveredProject)
  didScan : Bool
deriving DecidableEq

/-- What `load_binary_cache` returns after `save_binary_cache projects`:
the records with heavy fields cleared by `write_project`. -/
def savedShardedView (projects : List DiscoveredProject) : List DiscoveredProject :=
  projects.map clearHeavy

/-- `DiscoveryEngine::scan_and_cache`: discover, `save_binary_cache`,
then `save_cache` (the snapshot keeps the full records). -/
def scanAndCacheM (env : CacheEnv) : EngineOutcome :=
  { projects := env.scan
  , sharded := some (savedShardedView env.scan)
  , snapshot := some env.scan
  , didScan := true }

/-- `DiscoveryEngine::get_projects`: force refresh always rescans;
otherwise the sharded cache is tried first, then the snapshot cache
(migrating its contents into sharded form on a hit), and only a total
miss rescans. -/
def getProjectsM (force : Bool) (env : CacheEnv) : EngineOutcome :=
  if force then scanAndCacheM env
  else
    match env.sharded with
    | some ps =>
        { projects := ps, sharded := env.sharded, snapshot := env.snapshot
        , didScan := false }
    | none =>
        match env.snapshot with
        | some ps =>
            { projects := ps, sharded := some (savedShardedView ps)
            , snapshot := env.snapshot, didScan := false }
        | none => scanAndCacheM env

/-- Pre-serialized response bytes (`Vec<u8>`). -/
abbrev Payload := List Nat

/-- `CacheKey` from `src/data_layer/cache.rs`. -/
inductive CacheKeyM where
  | projectList
  | projectMetrics (name : String)
  | allProjectsAggregate
deriving DecidableEq

/-- `DataError` from `src/data_layer/messages.rs`. -/
inductive DataErrorM where
  | projectNotFound (name : String)
  | parseError (msg : String)
  | cacheError (msg : String)
deriving DecidableEq

/-- The `ResponseCache` contents: key to pre-serialized bytes. -/
abbrev ResponseCacheM := List (CacheKeyM × Payload)

/-- `ResponseCache::get`. -/
def cacheGet (k : CacheKeyM) : ResponseCacheM → Option Payload
  | [] => none
  | (k2, v) :: rest => if k2 = k then some v else cacheGet k rest

/-- `ResponseCache::insert` (wholesale replacement; a prepended entry
shadows any older one under `cacheGet`). -/
def cacheInsert (k : CacheKeyM) (v : Payload) (c : ResponseCacheM) : ResponseCacheM :=
  (k, v) :: c

/-- The reply value built by `load_project_metrics` before
serialization (`ProjectInfo`; the summary/detail projections of
`api_types.rs` are kept abstract inside it). -/
structure ProjectInfoM where
  project_name : String
  statistics : UnifiedMetrics
  workflow_state : Option WorkflowState
deriving DecidableEq

/-- The write-back step of `load_project_metrics`:
`iter_mut().find(|p| p.name == name)` then `project.statistics =
Some(stats)` — only the first matching project is updated. -/
def setStats (name : String) (stats : UnifiedMetrics) :
    List DiscoveredProject → List DiscoveredProject
  | [] => []
  | p :: rest =>
      if p.name = name then { p with statistics := some stats } :: rest
      else p :: setStats name stats rest

/-- `WorkerPool::load_project_metrics`: find the project by name; if
absent, `ProjectNotFound(name)` with no table mutation; if present with
statistics loaded, reply from them; otherwise run the heavy parse
(injected as `parse`), propagate a parse failure as `ParseError`, and
on success store the statistics back into the table and reply. -/
def loadProjectMetricsM (parse : String → Except String UnifiedMetrics)
    (name : String) (table : List DiscoveredProject) :
    Except DataErrorM ProjectInfoM × List DiscoveredProject :=
  match table.find? (fun p => p.name == name) with
  | none => (Except.error (DataErrorM.projectNotFound name), table)
  | some p =>
      match p.statistics with
      | some stats =>
          (Except.ok { project_name := name, statistics := stats
                     , workflow_state := p.workflow_state }, table)
      | none =>
          match parse p.hegel_dir with
          | Except.error e =>
              (Except.error (DataErrorM.parseError ("Failed to parse metrics: " ++ e)),
               table)
          | Except.ok stats =>
              (Except.ok { project_name := name, statistics := stats
                         , workflow_state := p.workflow_state },
               setStats name stats table)

/-- `WorkerPool::handle_get_project_metrics`: cache hit replies the
cached bytes; on a miss the load runs, a success is serialized
(injected as `ser`) and cached, an error is replied as-is. -/
def handleGetProjectMetricsM (ser : ProjectInfoM → Payload)
    (parse : String → Except String UnifiedMetrics) (name : String)
    (cache : ResponseCacheM) (table : List DiscoveredProject) :
    Except DataErrorM Payload × ResponseCacheM × List DiscoveredProject :=
  match cacheGet (CacheKeyM.projectMetrics name) cache with
  | some bytes => (Except.ok bytes, cache, table)
  | none =>
      match loadProjectMetricsM parse name table with
      | (Except.ok info, table2) =>
          let bytes := ser info
          (Except.ok bytes, cacheInsert (CacheKeyM.projectMetrics name) bytes cache,
           table2)
      | (Except.error e, table2) => (Except.error e, cache, table2)

/-- Several `GetProjectMetrics(name)` requests in flight for the same
name, sequentialized as the table lock serializes their accesses: each
runs against the state the previous one left. -/
def runGetMetricsSeq (ser : ProjectInfoM → Payload)
    (parse : String → Except String UnifiedMetrics) (name : String) :
    Nat → ResponseCacheM → List DiscoveredProject →
    List (Except DataErrorM Payload) × ResponseCacheM × List DiscoveredProject
  | 0, cache, table => ([], cache, table)
  | Nat.succ k, cache, table =>
      let r := handleGetProjectMetricsM ser parse name cache table
      let rest := runGetMetricsSeq ser parse name k r.2.1 r.2.2
      (r.1 :: rest.1, rest.2.1, rest.2.2)

/-- The u64 modulus (64-bit `usize` uses the same one). -/
def U64 : Nat := 2 ^ 64

/-- The nine accumulators of the `handle_get_all_projects` summing
loop. -/
structure MetricTotals where
  total_input : Nat
  total_output : Nat
  total_cache_creation : Nat
  total_cache_read : Nat
  total_events : Nat
  total_bash_commands : Nat
  total_file_modifications : Nat
  total_git_commits : Nat
  total_phases : Nat
deriving DecidableEq

/-- All accumulators start at zero. -/
def zeroTotals : MetricTotals :=
  { total_input := 0, total_output := 0, total_cache_creation := 0
  , total_cache_read := 0, total_events := 0, total_bash_commands := 0
  , total_file_modifications := 0, total_git_commits := 0, total_phases := 0 }

/-- One iteration of the summing loop: `if let Some(ref stats) =
project.statistics` adds its counters (wrapping machine addition),
otherwise the project contributes nothing. -/
def addProjectMetrics (acc : MetricTotals) (p : DiscoveredProject) : MetricTotals :=
  match p.statistics with
  | none => acc
  | some stats =>
      { total_input := (acc.total_input + stats.token_metrics.total_input_tokens) % U64
      , total_output := (acc.total_output + stats.token_metrics.total_output_tokens) % U64
      , total_cache_creation :=
          (acc.total_cache_creation + stats.token_metrics.total_cache_creation_tokens) % U64
      , total_cache_read :=
          (acc.total_cache_read + stats.token_metrics.total_cache_read_tokens) % U64
      , total_events := (acc.total_events + stats.hook_metrics.total_events) % U64
      , total_bash_commands :=
          (acc.total_bash_commands + stats.hook_metrics.bash_commands.length) % U64
      , total_file_modifications :=
          (acc.total_file_modifications + stats.hook_metrics.file_modifications.length) % U64
      , total_git_commits := (acc.total_git_commits + stats.git_commits.length) % U64
      , total_phases := (acc.total_phases + stats.phase_metrics.length) % U64 }

/-- The full summing loop over the project table. -/
def sumProjectMetrics (table : List DiscoveredProject) : MetricTotals :=
  table.foldl addProjectMetrics zeroTotals

/-- `AggregateMetrics` from `src/api_types.rs` as populated by
`handle_get_all_projects`. -/
structure AggregateMetricsM where
  total_input_tokens : Nat
  total_output_tokens : Nat
  total_cache_creation_tokens : Nat
  total_cache_read_tokens : Nat
  total_all_tokens : Nat
  total_events : Nat
  bash_command_count : Nat
  file_modification_count : Nat
  git_commit_count : Nat
  phase_count : Nat
deriving DecidableEq

/-- `AllProjectsAggregate` from `src/api_types.rs`. -/
structure AllProjectsAggregateM where
  total_projects : Nat
  aggregate_metrics : AggregateMetricsM
deriving DecidableEq

/-- The aggregate built on a `GetAllProjects` cache miss:
`total_projects` counts the whole table, the metric fields come from
the summing loop, and `total_all_tokens` adds the four token totals in
the same pass. -/
def aggregateOf (table : List DiscoveredProject) : AllProjectsAggregateM :=
  let t := sumProjectMetrics table
  { total_projects := table.length
  , aggregate_metrics :=
    { total_input_tokens := t.total_input
    , total_output_tokens := t.total_output
    , total_cache_creation_tokens := t.total_cache_creation
    , total_cache_read_tokens := t.total_cache_read
    , total_all_tokens :=
        (t.total_input + t.total_output + t.total_cache_creation +
          t.total_cache_read) % U64
    , total_events := t.total_events
    , bash_command_count := t.total_bash_commands
    , file_modification_count := t.total_file_modifications
    , git_commit_count := t.total_git_commits
    , phase_count := t.total_phases } }

/-- `WorkerPool::handle_get_all_projects`: cache hit replies the cached
bytes; on a miss the aggregate is computed from the table (a read lock
only — the table is never written), serialized and cached. -/
def handleGetAllProjectsM (ser : AllProjectsAggregateM → Payload)
    (cache : ResponseCacheM) (table : List DiscoveredProject) :
    Payload × ResponseCacheM × List DiscoveredProject :=
  match cacheGet CacheKeyM.allProjectsAggregate cache with
  | some bytes => (bytes, cache, table)
  | none =>
      let bytes := ser (aggregateOf table)
      (bytes, cacheInsert CacheKeyM.allProjectsAggregate bytes cache, table)

/-! ### Shared sample data for concrete witnesses -/

/-- A concrete freshly scanned project (no state, no statistics). -/
def sampleProject (nm : String) : DiscoveredProject :=
  { name := nm, project_path := "/r/" ++ nm, hegel_dir := "/r/" ++ nm ++ "/.hegel"
  , workflow_state := none, last_activity := 0, discovered_at := 0
  , error := none, statistics := none }

/-- A concrete statistics blob. -/
def sampleStats : UnifiedMetrics :=
  { token_metrics :=
      { total_input_tokens := 1, total_output_tokens := 2
      , total_cache_creation_tokens := 3, total_cache_read_tokens := 4 }
  , hook_metrics :=
      { total_events := 5, bash_commands := [()], file_modifications := [] }
  , git_commits := [(), ()]
  , phase_metrics := [()] }

/-- A concrete project with loaded statistics. -/
def loadedProject (nm : String) : DiscoveredProject :=
  { sampleProject nm with statistics := some sampleStats }

/-! ### Helper lemmas -/

/-- The record-write loop is one write event per project, in order. -/
theorem writeRecordEvents_eq_map (writeOk : String → Bool)
    (l : List DiscoveredProject) :
    writeRecordEvents writeOk l =
      l.map (fun p => WriteEvent.record p.name (writeOk p.name)) := by
  induction l with
  | nil => rfl
  | cons p rest ih => simp [writeRecordEvents, ih]

/-- The push-accumulating loop of `load_binary_cache` is a `filterMap`. -/
theorem foldl_pushSome_eq_filterMap (files : RecordFileMap) :
    ∀ (l : List ProjectIndexEntry) (acc : List DiscoveredProject),
      l.foldl (loadStep files) acc = acc ++ l.filterMap (loadedRecord files) := by
  intro l
  induction l with
  | nil => intro acc; simp
  | cons e rest ih =>
      intro acc
      cases h : loadedRecord files e <;>
        simp [List.filterMap_cons, loadStep, h, ih]

/-! ### C1: DiscoveryEngine::get_projects control flow -/

/-- C1: `get_projects(force_refresh)`: if forced, always rescan and
persist to both the sharded and the snapshot format; otherwise the
sharded cache is tried first and a hit is returned as-is; on a sharded
miss a snapshot hit is migrated into sharded form and returned; if both
caches are absent, a full scan runs and persists to both formats. -/
theorem getProjects_cases (env : CacheEnv) :
    (getProjectsM true env = scanAndCacheM env ∧
      (scanAndCacheM env).projects = env.scan ∧
      (scanAndCacheM env).didScan = true ∧
      (scanAndCacheM env).sharded = some (savedShardedView env.scan) ∧
      (scanAndCacheM env).snapshot = some env.scan) ∧
    (∀ ps, env.sharded = some ps →
      getProjectsM false env =
        { projects := ps, sharded := env.sharded, snapshot := env.snapshot
        , didScan := false }) ∧
    (env.sharded = none → ∀ ps, env.snapshot = some ps →
      getProjectsM false env =
        { projects := ps, sharded := some (savedShardedView ps)
        , snapshot := env.snapshot, didScan := false }) ∧
    (env.sharded = none → env.snapshot = none →
      getProjectsM false env = scanAndCacheM env) := by
  refine ⟨⟨rfl, rfl, rfl, rfl, rfl⟩, ?_, ?_, ?_⟩
  · intro ps h
    simp [getProjectsM, h]
  · intro h1 ps h2
    simp [getProjectsM, h1, h2]
  · intro h1 h2
    simp [getProjectsM, h1, h2]

/-- Witness for C1 at three concrete environments: a sharded hit, a
sharded miss with snapshot hit (migration), and a total miss. -/
theorem getProjects_cases_witness :
    (getProjectsM false
        { sharded := some [sampleProject "p1"], snapshot := none, scan := [] } =
      { projects := [sampleProject "p1"], sharded := some [sampleProject "p1"]
      , snapshot := none, didScan := false }) ∧
    (getProjectsM false
        { sharded := none, snapshot := some [sampleProject "p2"], scan := [] } =
      { projects := [sampleProject "p2"]
      , sharded := some (savedShardedView [sampleProject "p2"])
      , snapshot := some [sampleProject "p2"], didScan := false }) ∧
    (getProjectsM false
        { sharded := none, snapshot := none, scan := [sampleProject "p3"] } =
      scanAndCacheM { sharded := none, snapshot := none, scan := [sampleProject "p3"] }) :=
  ⟨(getProjects_cases _).2.1 _ rfl,
   (getProjects_cases _).2.2.1 rfl _ rfl,
   (getProjects_cases _).2.2.2 rfl rfl⟩

/-! ### C2: save_binary_cache write ordering and error policy -/

/-- C2: persisting N records attempts every per-record file write, in
list order, before the index write; the index write is the last event;
a failed record write never changes the call's outcome (logged and
skipped), while a failed index write makes the save return an error. -/
theorem saveBinaryCache_write_ordering (writeOk : String → Bool) (indexOk : Bool)
    (projects : List DiscoveredProject) :
    (saveBinaryCacheTrace writeOk indexOk projects).1 =
      (projects.map (fun p => WriteEvent.record p.name (writeOk p.name))) ++
        [WriteEvent.index indexOk] ∧
    ((saveBinaryCacheTrace writeOk indexOk projects).2 = Except.ok () ↔
      indexOk = true) := by
  constructor
  · cases indexOk <;>
      simp [saveBinaryCacheTrace, writeRecordEvents_eq_map]
  · cases indexOk <;> simp [saveBinaryCacheTrace]

/-! ### C3: load_binary_cache failure modes -/

/-- C3: loading the sharded cache yields the no-cache outcome
(`Ok(None)`) when the index file is absent and a hard error when the
index is present but corrupt; with a valid index the call always
succeeds, returning exactly the entries whose record file loads —
missing or corrupt record files are skipped. -/
theorem loadBinaryCache_spec (files : RecordFileMap) :
    loadBinaryCacheM IndexFile.absent files = Except.ok none ∧
    loadBinaryCacheM IndexFile.corrupt files =
      Except.error "Failed to deserialize index" ∧
    ∀ idx, loadBinaryCacheM (IndexFile.valid idx) files =
      Except.ok (some (idx.filterMap (loadedRecord files))) := by
  refine ⟨rfl, rfl, ?_⟩
  intro idx
  simp only [loadBinaryCacheM, readIndexM]
  rw [foldl_pushSome_eq_filterMap files idx []]
  simp

/-! ### C4 / C9: sharded round-trip and name sanitization collisions -/

/-- Two distinct keys: appending the common `.bin` suffix preserves
distinctness. -/
theorem bin_key_ne {a b : String} (h : a ≠ b) : a ++ ".bin" ≠ b ++ ".bin" := by
  intro hab
  apply h
  have hd := congrArg String.data hab
  simp only [String.data_append] at hd
  exact String.ext (List.append_cancel_right hd)

/-- Reading a name whose sanitized form differs from the written
project's is unaffected by that write. -/
theorem readProjectFS_write_other (name : String) (q : DiscoveredProject)
    (fs : FileMap) (h : sanitize name ≠ sanitize q.name) :
    readProjectFS name (writeProjectFS q fs) = readProjectFS name fs := by
  simp only [readProjectFS, writeProjectFS, lookupFile]
  rw [if_neg (bin_key_ne (Ne.symm h))]

/-- A run of project writes touching only other sanitized names leaves
a read unchanged. -/
theorem readProjectFS_fold_other (name : String) :
    ∀ (l : List DiscoveredProject) (fs : FileMap),
      sanitize name ∉ l.map (fun q => sanitize q.name) →
      readProjectFS name (l.foldl (fun acc q => writeProjectFS q acc) fs) =
        readProjectFS name fs := by
  intro l
  induction l with
  | nil => intro fs _; rfl
  | cons q rest ih =>
      intro fs h
      simp only [List.map_cons, List.mem_cons, not_or] at h
      simp only [List.foldl_cons]
      rw [ih (writeProjectFS q fs) h.2, readProjectFS_write_other name q fs h.1]

/-- After saving a list whose sanitized names are pairwise distinct,
each project reads back as its heavy-field-cleared copy. -/
theorem readProjectFS_fold_mem :
    ∀ (projects : List DiscoveredProject) (fs : FileMap),
      (projects.map (fun p => sanitize p.name)).Nodup →
      ∀ p ∈ projects,
        readProjectFS p.name
          (projects.foldl (fun acc q => writeProjectFS q acc) fs) =
          some (clearHeavy p) := by
  intro projects
  induction projects with
  | nil => intro fs _ p hp; cases hp
  | cons q rest ih =>
      intro fs hnd p hp
      simp only [List.map_cons, List.nodup_cons] at hnd
      simp only [List.foldl_cons]
      rcases List.mem_cons.mp hp with rfl | hmem
      · rw [readProjectFS_fold_other p.name rest (writeProjectFS p fs) hnd.1]
        simp [readProjectFS, writeProjectFS, lookupFile]
      · exact ih (writeProjectFS q fs) hnd.2 p hmem

/-- Point-wise `some` results collapse a `filterMap` to a `map`. -/
theorem filterMap_congr_some {α β : Type} (f : α → Option β) (g : α → β) :
    ∀ (l : List α), (∀ a ∈ l, f a = some (g a)) → l.filterMap f = l.map g := by
  intro l
  induction l with
  | nil => intro _; rfl
  | cons a rest ih =>
      intro h
      simp only [List.filterMap_cons, h a (List.mem_cons_self a rest), List.map_cons]
      rw [ih (fun b hb => h b (List.mem_cons_of_mem a hb))]

/-- C4 (amended): when the sanitized project names are pairwise
distinct, saving then loading via the sharded cache returns exactly the
saved names (so the name sets agree), and every loaded record has no
statistics and no workflow state. -/
theorem saveLoad_roundtrip (projects : List DiscoveredProject) (fs0 : FileMap)
    (hnd : (projects.map (fun p => sanitize p.name)).Nodup) :
    ((loadBinaryCacheFS (saveBinaryCacheFS projects fs0).2
        (saveBinaryCacheFS projects fs0).1).map (fun p => p.name) =
      projects.map (fun p => p.name)) ∧
    (∀ q ∈ loadBinaryCacheFS (saveBinaryCacheFS projects fs0).2
        (saveBinaryCacheFS projects fs0).1,
      q.statistics = none ∧ q.workflow_state = none) := by
  have hload : loadBinaryCacheFS (saveBinaryCacheFS projects fs0).2
      (saveBinaryCacheFS projects fs0).1 = projects.map clearHeavy := by
    unfold loadBinaryCacheFS saveBinaryCacheFS
    rw [List.filterMap_map]
    exact filterMap_congr_some _ _ projects
      (fun p hp => readProjectFS_fold_mem projects fs0 hnd p hp)
  constructor
  · rw [hload, List.map_map]
    rfl
  · intro q hq
    rw [hload] at hq
    obtain ⟨p, _, rfl⟩ := List.mem_map.mp hq
    exact ⟨rfl, rfl⟩

/-- Witness for C4 (amended) at a concrete two-project list with
distinct sanitized names. -/
theorem saveLoad_roundtrip_witness :
    (([sampleProject "alpha", sampleProject "beta"].map
        (fun p => sanitize p.name)).Nodup) ∧
    (((loadBinaryCacheFS
        (saveBinaryCacheFS [sampleProject "alpha", sampleProject "beta"] []).2
        (saveBinaryCacheFS [sampleProject "alpha", sampleProject "beta"] []).1).map
          (fun p => p.name) =
      [sampleProject "alpha", sampleProject "beta"].map (fun p => p.name)) ∧
     (∀ q ∈ loadBinaryCacheFS
        (saveBinaryCacheFS [sampleProject "alpha", sampleProject "beta"] []).2
        (saveBinaryCacheFS [sampleProject "alpha", sampleProject "beta"] []).1,
        q.statistics = none ∧ q.workflow_state = none)) :=
  ⟨by decide, saveLoad_roundtrip _ _ (by decide)⟩

/-- C4 counterexample: the names `a.b` and `a_b` sanitize to the same
file name, so after saving both, the saved name `a.b` is absent from
the loaded name set — the round-trip does not hold for every list of
records. -/
theorem saveLoad_roundtrip_counterexample :
    "a.b" ∈ ([sampleProject "a.b", sampleProject "a_b"].map (fun p => p.name)) ∧
    "a.b" ∉ ((loadBinaryCacheFS
        (saveBinaryCacheFS [sampleProject "a.b", sampleProject "a_b"] []).2
        (saveBinaryCacheFS [sampleProject "a.b", sampleProject "a_b"] []).1).map
          (fun p => p.name)) := by
  decide

/-- C9: the record file path depends only on the sanitized name: two
names with equal sanitized forms address the same file, so writing a
record under the first name and reading the second returns the first
name's (heavy-field-cleared) record. -/
theorem sanitize_collision (n1 n2 : String) (p : DiscoveredProject) (fs : FileMap)
    (hname : p.name = n1) (hcol : sanitize n1 = sanitize n2) :
    (sanitize n1 ++ ".bin" = sanitize n2 ++ ".bin") ∧
    readProjectFS n2 (writeProjectFS p fs) = some (clearHeavy p) ∧
    (clearHeavy p).name = n1 := by
  refine ⟨by rw [hcol], ?_, hname⟩
  simp only [readProjectFS, writeProjectFS, lookupFile]
  rw [if_pos (by rw [hname, hcol])]

/-- Witness for C9 at the colliding concrete names `a.b` and `a:b`. -/
theorem sanitize_collision_witness :
    ((sampleProject "a.b").name = "a.b") ∧ (sanitize "a.b" = sanitize "a:b") ∧
    ((sanitize "a.b" ++ ".bin" = sanitize "a:b" ++ ".bin") ∧
     readProjectFS "a:b" (writeProjectFS (sampleProject "a.b") []) =
       some (clearHeavy (sampleProject "a.b")) ∧
     (clearHeavy (sampleProject "a.b")).name = "a.b") :=
  ⟨by decide, by decide, sanitize_collision _ _ _ _ (by decide) (by decide)⟩

/-! ### C5: exclusion pruning in the scanner -/

/-- Membership in the child walk decomposes into membership in one
child's walk. -/
theorem mem_collectMarkersList (excl : List String) (maxd : Nat)
    (pp : List String) (p : List String) :
    ∀ (l : List FsEntry),
      p ∈ collectMarkersList excl maxd pp l ↔
        ∃ e ∈ l, p ∈ collectMarkers excl maxd pp e := by
  intro l
  induction l with
  | nil => simp [collectMarkersList]
  | cons e rest ih =>
      simp [collectMarkersList, List.mem_append, ih]

/-- Every path the walk returns extends the starting path by
components none of which is excluded. -/
theorem collectMarkers_suffix :
    ∀ (n : Nat) (e : FsEntry), sizeOf e ≤ n →
      ∀ (excl : List String) (maxd : Nat) (pp p : List String),
        p ∈ collectMarkers excl maxd pp e →
        ∃ s, p = pp ++ s ∧ ∀ c ∈ s, c ∉ excl := by
  intro n
  induction n with
  | zero =>
      intro e he
      exfalso
      cases e <;> simp_arith at he
  | succ n ih =>
      intro e he excl maxd pp p hp
      cases e with
      | file nm =>
          unfold collectMarkers at hp
          split at hp <;> simp at hp
      | dir nm children =>
          unfold collectMarkers at hp
          by_cases hex : nm ∈ excl
          · simp [hex] at hp
          · rw [if_neg hex] at hp
            rcases List.mem_append.mp hp with h1 | h2
            · by_cases hh : nm = ".hegel"
              · rw [if_pos hh] at h1
                simp only [List.mem_singleton] at h1
                exact ⟨[], by simp [h1], by simp⟩
              · rw [if_neg hh] at h1
                simp at h1
            · by_cases hm0 : maxd = 0
              · rw [if_pos hm0] at h2
                simp at h2
              · rw [if_neg hm0] at h2
                obtain ⟨e2, he2, hpe2⟩ :=
                  (mem_collectMarkersList excl (maxd - 1) (pp ++ [nm]) p children).mp h2
                have hsz : sizeOf e2 ≤ n := by
                  have hlt : sizeOf e2 < sizeOf children :=
                    List.sizeOf_lt_of_mem he2
                  have hspec : sizeOf (FsEntry.dir nm children) =
                      1 + sizeOf nm + sizeOf children := by
                    simp
                  omega
                obtain ⟨s, hs, hall⟩ :=
                  ih e2 hsz excl (maxd - 1) (pp ++ [nm]) p hpe2
                refine ⟨nm :: s, by rw [hs]; simp, ?_⟩
                intro c hc
                rcases List.mem_cons.mp hc with rfl | hcs
                · exact hex
                · exact hall c hcs

/-- C5: a directory whose own name matches an exclusion string
contributes nothing to the walk (its subtree is never descended into),
and consequently a returned project root never contains an excluded
component — a marker beneath an excluded directory, at any depth, is
never among the returned roots. -/
theorem walker_exclusion (excl : List String) (maxd : Nat) :
    (∀ (pp : List String) (nm : String) (children : List FsEntry),
      nm ∈ excl →
      collectMarkers excl maxd pp (FsEntry.dir nm children) = []) ∧
    (∀ (root : FsEntry) (p : List String) (c : String),
      c ∈ p → c ∈ excl → p ∉ collectMarkers excl maxd [] root) := by
  constructor
  · intro pp nm children hex
    unfold collectMarkers
    rw [if_pos hex]
  · intro root p c hc hex hp
    obtain ⟨s, hs, hall⟩ :=
      collectMarkers_suffix (sizeOf root) root le_rfl excl maxd [] p hp
    simp only [List.nil_append] at hs
    subst hs
    exact hall c hc hex

/-- Witness for C5: a concrete tree with a marker inside
`node_modules`; the excluded directory yields nothing and the nested
marker's root is not returned. -/
theorem walker_exclusion_witness :
    ("node_modules" ∈ (["node_modules"] : List String)) ∧
    (collectMarkers ["node_modules"] 10 ["root"]
      (FsEntry.dir "node_modules" [FsEntry.dir "x" [FsEntry.dir ".hegel" []]]) = []) ∧
    ("node_modules" ∈ (["root", "node_modules", "x"] : List String)) ∧
    (["root", "node_modules", "x"] ∉ collectMarkers ["node_modules"] 10 []
      (FsEntry.dir "root"
        [FsEntry.dir "proj" [FsEntry.dir ".hegel" []],
         FsEntry.dir "node_modules" [FsEntry.dir "x" [FsEntry.dir ".hegel" []]]])) :=
  ⟨by decide,
   (walker_exclusion ["node_modules"] 10).1 ["root"] "node_modules"
     [FsEntry.dir "x" [FsEntry.dir ".hegel" []]] (by decide),
   by decide,
   (walker_exclusion ["node_modules"] 10).2
     (FsEntry.dir "root"
       [FsEntry.dir "proj" [FsEntry.dir ".hegel" []],
        FsEntry.dir "node_modules" [FsEntry.dir "x" [FsEntry.dir ".hegel" []]]])
     ["root", "node_modules", "x"] "node_modules" (by decide) (by decide)⟩

/-! ### C6: state loading outcome pairs -/

/-- C6: the state-loading step always returns a pair: a missing state
file gives `(None, None)`, a present but unparseable file gives
`(None, Some(detail))`, a present and valid workflow state gives
`(Some(state), None)`; the pair never carries both a state and an
error, and the enclosing scan produces one outcome per metadata
directory whatever the state files look like (a per-project failure
never aborts it). -/
theorem state_pair_spec :
    (statePair StateFileM.missing = (none, none)) ∧
    (∀ ws, statePair (StateFileM.parsed (some ws)) = (some ws, none)) ∧
    (∃ d, statePair StateFileM.unparseable = (none, some d)) ∧
    (∀ sf, (statePair sf).1 = none ∨ (statePair sf).2 = none) ∧
    (∀ dirs, (discoverOutcomes dirs).length = dirs.length) := by
  refine ⟨rfl, fun ws => rfl, ⟨"Failed to load state: Failed to load state", rfl⟩,
    ?_, fun dirs => by simp [discoverOutcomes]⟩
  intro sf
  cases sf with
  | missing => exact Or.inl rfl
  | unparseable => exact Or.inl rfl
  | parsed ws => exact Or.inr rfl

/-! ### C7: GetProjectMetrics for an absent project -/

/-- C7: a `GetProjectMetrics` request for a name absent from the live
project table (with no stale cached response for that key) replies with
`ProjectNotFound(name)` carrying that same name, mutates neither the
table nor the response cache, and any number of duplicate requests —
sequentialized as the single-writer worker and the table lock
serialize them — all get the same error while leaving the state
unchanged (the handler is a total function: it never crashes). -/
theorem get_metrics_not_found (ser : ProjectInfoM → Payload)
    (parse : String → Except String UnifiedMetrics) (name : String)
    (cache : ResponseCacheM) (table : List DiscoveredProject)
    (habsent : ∀ p ∈ table, p.name ≠ name)
    (hmiss : cacheGet (CacheKeyM.projectMetrics name) cache = none) :
    handleGetProjectMetricsM ser parse name cache table =
      (Except.error (DataErrorM.projectNotFound name), cache, table) ∧
    ∀ k, runGetMetricsSeq ser parse name k cache table =
      (List.replicate k (Except.error (DataErrorM.projectNotFound name)),
        cache, table) := by
  have hfind : table.find? (fun p => p.name == name) = none := by
    rw [List.find?_eq_none]
    intro p hp
    simp [habsent p hp]
  have h1 : handleGetProjectMetricsM ser parse name cache table =
      (Except.error (DataErrorM.projectNotFound name), cache, table) := by
    simp [handleGetProjectMetricsM, hmiss, loadProjectMetricsM, hfind]
  refine ⟨h1, ?_⟩
  intro k
  induction k with
  | zero => rfl
  | succ k ih =>
      simp [runGetMetricsSeq, h1, ih, List.replicate_succ]

/-- Witness for C7 at a concrete table without the requested name. -/
theorem get_metrics_not_found_witness :
    (∀ p ∈ [sampleProject "x"], p.name ≠ "y") ∧
    (handleGetProjectMetricsM (fun _ => []) (fun _ => Except.error "") "y"
        [] [sampleProject "x"] =
      (Except.error (DataErrorM.projectNotFound "y"), [], [sampleProject "x"])) ∧
    (runGetMetricsSeq (fun _ => []) (fun _ => Except.error "") "y" 2
        [] [sampleProject "x"] =
      (List.replicate 2 (Except.error (DataErrorM.projectNotFound "y")),
        [], [sampleProject "x"])) :=
  ⟨by decide,
   (get_metrics_not_found (fun _ => []) (fun _ => Except.error "") "y"
     [] [sampleProject "x"] (by decide) rfl).1,
   (get_metrics_not_found (fun _ => []) (fun _ => Except.error "") "y"
     [] [sampleProject "x"] (by decide) rfl).2 2⟩

/-! ### C8 / C10: the GetAggregate computation -/

/-- Projects without loaded statistics leave the accumulators
untouched, so the summing loop only sums over loaded projects. -/
theorem sumMetrics_filter_loaded :
    ∀ (l : List DiscoveredProject) (acc : MetricTotals),
      l.foldl addProjectMetrics acc =
        (l.filter (fun p => p.statistics.isSome)).foldl addProjectMetrics acc := by
  intro l
  induction l with
  | nil => intro acc; rfl
  | cons p rest ih =>
      intro acc
      cases hp : p.statistics <;>
        simp [List.filter_cons, hp, addProjectMetrics, ih]

/-- C8: on a `GetAggregate` cache miss the served bytes are the
serialized aggregate of the table, whose metric sums coincide with the
sums over only the projects with loaded statistics (unloaded projects
contribute nothing), and the table is not written — no statistics are
loaded on demand. -/
theorem aggregate_only_loaded (ser : AllProjectsAggregateM → Payload)
    (cache : ResponseCacheM) (table : List DiscoveredProject)
    (hmiss : cacheGet CacheKeyM.allProjectsAggregate cache = none) :
    (handleGetAllProjectsM ser cache table).1 = ser (aggregateOf table) ∧
    (aggregateOf table).aggregate_metrics =
      (aggregateOf (table.filter (fun p => p.statistics.isSome))).aggregate_metrics ∧
    (handleGetAllProjectsM ser cache table).2.2 = table := by
  have hsum : sumProjectMetrics table =
      sumProjectMetrics (table.filter (fun p => p.statistics.isSome)) :=
    sumMetrics_filter_loaded table zeroTotals
  refine ⟨?_, ?_, ?_⟩
  · simp [handleGetAllProjectsM, hmiss]
  · simp [aggregateOf, hsum]
  · simp [handleGetAllProjectsM, hmiss]

/-- Witness for C8 at a concrete table with one loaded and one
unloaded project and an empty response cache. -/
theorem aggregate_only_loaded_witness :
    (cacheGet CacheKeyM.allProjectsAggregate [] = none) ∧
    ((handleGetAllProjectsM (fun _ => []) [] [loadedProject "a", sampleProject "b"]).1 =
      (fun _ => ([] : Payload)) (aggregateOf [loadedProject "a", sampleProject "b"])) ∧
    ((aggregateOf [loadedProject "a", sampleProject "b"]).aggregate_metrics =
      (aggregateOf ([loadedProject "a", sampleProject "b"].filter
        (fun p => p.statistics.isSome))).aggregate_metrics) ∧
    ((handleGetAllProjectsM (fun _ => []) [] [loadedProject "a", sampleProject "b"]).2.2 =
      [loadedProject "a", sampleProject "b"]) :=
  ⟨rfl,
   (aggregate_only_loaded (fun _ => []) [] [loadedProject "a", sampleProject "b"] rfl).1,
   (aggregate_only_loaded (fun _ => []) [] [loadedProject "a", sampleProject "b"] rfl).2.1,
   (aggregate_only_loaded (fun _ => []) [] [loadedProject "a", sampleProject "b"] rfl).2.2⟩

/-- C10: `total_projects` counts the whole table — including projects
without loaded statistics, which contributed nothing to the metric
sums — and, whenever the four token totals' sum fits in a u64 (no
wrap-around), `total_all_tokens` is exactly the sum of the four token
totals computed in the same pass. -/
theorem aggregate_totals (table : List DiscoveredProject)
    (hfit : (sumProjectMetrics table).total_input +
        (sumProjectMetrics table).total_output +
        (sumProjectMetrics table).total_cache_creation +
        (sumProjectMetrics table).total_cache_read < U64) :
    (aggregateOf table).total_projects = table.length ∧
    (aggregateOf table).aggregate_metrics.total_all_tokens =
      (aggregateOf table).aggregate_metrics.total_input_tokens +
      (aggregateOf table).aggregate_metrics.total_output_tokens +
      (aggregateOf table).aggregate_metrics.total_cache_creation_tokens +
      (aggregateOf table).aggregate_metrics.total_cache_read_tokens := by
  refine ⟨rfl, ?_⟩
  simp only [aggregateOf]
  exact Nat.mod_eq_of_lt hfit

/-- Witness for C10 at a concrete table with one loaded and one
unloaded project: both are counted, and the token identity holds. -/
theorem aggregate_totals_witness :
    ((sumProjectMetrics [loadedProject "a", sampleProject "b"]).total_input +
        (sumProjectMetrics [loadedProject "a", sampleProject "b"]).total_output +
        (sumProjectMetrics [loadedProject "a", sampleProject "b"]).total_cache_creation +
        (sumProjectMetrics [loadedProject "a", sampleProject "b"]).total_cache_read < U64) ∧
    ((aggregateOf [loadedProject "a", sampleProject "b"]).total_projects =
      ([loadedProject "a", sampleProject "b"] : List DiscoveredProject).length ∧
     (aggregateOf [loadedProject "a", sampleProject "b"]).aggregate_metrics.total_all_tokens =
      (aggregateOf [loadedProject "a", sampleProject "b"]).aggregate_metrics.total_input_tokens +
      (aggregateOf [loadedProject "a", sampleProject "b"]).aggregate_metrics.total_output_tokens +
      (aggregateOf [loadedProject "a", sampleProject "b"]).aggregate_metrics.total_cache_creation_tokens +
      (aggregateOf [loadedProject "a", sampleProject "b"]).aggregate_metrics.total_cache_read_tokens) :=
  ⟨by decide, aggregate_totals [loadedProject "a", sampleProject "b"] (by decide)⟩
